import Mathlib

/-!
Verification of the settings-and-gallery resolution logic of the salon
website repository.

The development shallowly embeds the TypeScript module that owns the
`SiteSettings` document (`src/firebase.ts`: defaults, `mergeSettings`,
`loadFromLocalStorage`, `buildGalleryImageList`) and the two pieces of the
main page component that the claims reference (`normalizeFeaturedUrl` and
the `Specials` promotion filter).

Modelling conventions:
* JavaScript runtime values that may fail a shape check are embedded with
  small sum types (`JArr` for array-or-not, `JNum` for number-or-not); a
  `notArr` / `notNum` carries an opaque tag standing for an arbitrary
  non-array / non-number JSON value.
* A field of an incoming (externally sourced) document is `Option`-valued:
  `none` models an absent key, `some v` a present one.  Object spread
  `:=  \x7b ...defaults, ...incoming \x7d` therefore becomes `Option.getD`.
* JavaScript numbers that the code treats as integers are embedded as `Int`
  (`Math.floor` is the identity there); strings are `String` or, where
  character-level processing happens, `List Char`.
-/

/-- A JSON value that is supposed to be an array of `α`: either it really is
one, or it is some other value (`notArr`, with an opaque tag). -/
inductive JArr (α : Type) where
  | arr (xs : List α)
  | notArr (tag : Nat)
deriving DecidableEq

/-- A JSON value that is supposed to be a number: either it is one, or it is
some other value (`notNum`, with an opaque tag). -/
inductive JNum where
  | num (n : Int)
  | notNum (tag : Nat)
deriving DecidableEq

/-- A promotion entry (`SiteSettings.promotions.items` element). -/
structure Promotion where
  id : String
  title : String
  description : String
  badge : String
  ctaText : String
  imageUrl : String
  validUntil : String
deriving DecidableEq

/-- The `contact` section.  `addressLines` is kept as a raw JSON value
because `mergeSettings` copies it from an incoming document without an
`Array.isArray` check, so at runtime it can be any value. -/
structure Contact where
  addressLines : JArr String
  mapUrl : String
  phoneDisplay : String
  phoneTel : String
  whatsappDigits : String
  email : String
  hours : String
deriving DecidableEq

/-- The `socials` section. -/
structure Socials where
  instagramUrl : String
  facebookUrl : String
deriving DecidableEq

/-- The `media` section. -/
structure Media where
  heroVideoUrl : String
  heroPosterUrl : String
  heroVideoFit : String
  heroVideoPosition : String
deriving DecidableEq

/-- The `promotions` section. -/
structure Promotions where
  enabled : Bool
  items : List Promotion
deriving DecidableEq

/-- The `gallery.featuredNails` subsection. -/
structure FeaturedNails where
  enabled : Bool
  title : String
  imageUrls : List String
deriving DecidableEq

/-- The legacy `gallery.featuredVideo` subsection. -/
structure FeaturedVideo where
  enabled : Bool
  url : String
  posterUrl : String
  title : String
deriving DecidableEq

/-- The `gallery.numbered` subsection (`end` is a Lean keyword, hence
`end_`). -/
structure Numbered where
  folder : String
  start : Int
  end_ : Int
  extension : String
  order : List Int
deriving DecidableEq

/-- The `gallery` section. -/
structure Gallery where
  assetVersion : Int
  mode : String
  initialCount : Int
  pageSize : Int
  tileFit : String
  featuredNails : FeaturedNails
  featuredVideo : FeaturedVideo
  numbered : Numbered
  customImages : List String
deriving DecidableEq

/-- The complete `SiteSettings` document. -/
structure SiteSettings where
  contact : Contact
  socials : Socials
  media : Media
  promotions : Promotions
  gallery : Gallery
deriving DecidableEq

/-- The compiled-in default document `DEFAULT_SITE_SETTINGS`. -/
def DEFAULT_SITE_SETTINGS : SiteSettings :=
  { contact :=
      { addressLines := JArr.arr
          ["248 Ben Viljoen St",
           "Pretoria North, Pretoria, 0116",
           "South Africa"]
        mapUrl := "https://www.google.com/maps/search/?api=1&query=248+Ben+Viljoen+St,+Pretoria+North,+Pretoria,+0116,+South+Africa"
        phoneDisplay := "+27 69 288 8445"
        phoneTel := "+27692888445"
        whatsappDigits := "27692888445"
        email := "info@berlybeauty.co.za"
        hours := "Mon - Sun: 7:00 AM - 7:00 PM" }
    socials :=
      { instagramUrl := "https://www.instagram.com/salonberlybeauty10?igsh=MW42ZmFjY295NTk1eQ=="
        facebookUrl := "https://www.facebook.com/share/1HRogBAxNy/" }
    media :=
      { heroVideoUrl := "/gallery/1.mp4"
        heroPosterUrl := "/gallery/1.jpeg"
        heroVideoFit := "cover"
        heroVideoPosition := "50% 15%" }
    promotions :=
      { enabled := true
        items := [] }
    gallery :=
      { assetVersion := 1
        mode := "numbered"
        initialCount := 11
        pageSize := 12
        tileFit := "cover"
        featuredNails :=
          { enabled := true
            title := "Nails Designs"
            imageUrls :=
              ["/gallery/nails1.jpeg",
               "/gallery/nails2.jpeg",
               "/gallery/nails3.jpeg"] }
        featuredVideo :=
          { enabled := false
            url := "/gallery/nails.mp4"
            posterUrl := "/gallery/nails.jpeg"
            title := "Nails" }
        numbered :=
          { folder := "/gallery"
            start := 1
            end_ := 50
            extension := "jpeg"
            order := [] }
        customImages := [] } }

/-- An incoming `contact` section: every key optional, `addressLines` an
arbitrary JSON value (no shape check in the merge). -/
structure IncomingContact where
  addressLines : Option (JArr String) := none
  mapUrl : Option String := none
  phoneDisplay : Option String := none
  phoneTel : Option String := none
  whatsappDigits : Option String := none
  email : Option String := none
  hours : Option String := none
deriving DecidableEq

/-- An incoming `socials` section. -/
structure IncomingSocials where
  instagramUrl : Option String := none
  facebookUrl : Option String := none
deriving DecidableEq

/-- An incoming `media` section. -/
structure IncomingMedia where
  heroVideoUrl : Option String := none
  heroPosterUrl : Option String := none
  heroVideoFit : Option String := none
  heroVideoPosition : Option String := none
deriving DecidableEq

/-- An incoming `promotions` section; `items` is shape-checked by the merge,
so it is modelled as a raw JSON value. -/
structure IncomingPromotions where
  enabled : Option Bool := none
  items : Option (JArr Promotion) := none
deriving DecidableEq

/-- An incoming `gallery.featuredNails` subsection. -/
structure IncomingFeaturedNails where
  enabled : Option Bool := none
  title : Option String := none
  imageUrls : Option (JArr String) := none
deriving DecidableEq

/-- An incoming `gallery.featuredVideo` subsection. -/
structure IncomingFeaturedVideo where
  enabled : Option Bool := none
  url : Option String := none
  posterUrl : Option String := none
  title : Option String := none
deriving DecidableEq

/-- An incoming `gallery.numbered` subsection; `order` is shape-checked. -/
structure IncomingNumbered where
  folder : Option String := none
  start : Option Int := none
  end_ : Option Int := none
  extension : Option String := none
  order : Option (JArr Int) := none
deriving DecidableEq

/-- An incoming `gallery` section; `assetVersion` is checked with
`typeof === "number"`, and `customImages` with `Array.isArray`. -/
structure IncomingGallery where
  assetVersion : Option JNum := none
  mode : Option String := none
  initialCount : Option Int := none
  pageSize : Option Int := none
  tileFit : Option String := none
  featuredNails : Option IncomingFeaturedNails := none
  featuredVideo : Option IncomingFeaturedVideo := none
  numbered : Option IncomingNumbered := none
  customImages : Option (JArr String) := none
deriving DecidableEq

/-- An externally sourced partial `SiteSettings` document. -/
structure IncomingSettings where
  contact : Option IncomingContact := none
  socials : Option IncomingSocials := none
  media : Option IncomingMedia := none
  promotions : Option IncomingPromotions := none
  gallery : Option IncomingGallery := none
deriving DecidableEq

/-- Merge of the `contact` section: object spread over the defaults, with no
shape check on any field (in particular none on `addressLines`). -/
def mergeContact (p : Option IncomingContact) : Contact :=
  let q := p.getD {}
  { addressLines := q.addressLines.getD DEFAULT_SITE_SETTINGS.contact.addressLines
    mapUrl := q.mapUrl.getD DEFAULT_SITE_SETTINGS.contact.mapUrl
    phoneDisplay := q.phoneDisplay.getD DEFAULT_SITE_SETTINGS.contact.phoneDisplay
    phoneTel := q.phoneTel.getD DEFAULT_SITE_SETTINGS.contact.phoneTel
    whatsappDigits := q.whatsappDigits.getD DEFAULT_SITE_SETTINGS.contact.whatsappDigits
    email := q.email.getD DEFAULT_SITE_SETTINGS.contact.email
    hours := q.hours.getD DEFAULT_SITE_SETTINGS.contact.hours }

/-- Merge of the `socials` section. -/
def mergeSocials (p : Option IncomingSocials) : Socials :=
  let q := p.getD {}
  { instagramUrl := q.instagramUrl.getD DEFAULT_SITE_SETTINGS.socials.instagramUrl
    facebookUrl := q.facebookUrl.getD DEFAULT_SITE_SETTINGS.socials.facebookUrl }

/-- Merge of the `media` section. -/
def mergeMedia (p : Option IncomingMedia) : Media :=
  let q := p.getD {}
  { heroVideoUrl := q.heroVideoUrl.getD DEFAULT_SITE_SETTINGS.media.heroVideoUrl
    heroPosterUrl := q.heroPosterUrl.getD DEFAULT_SITE_SETTINGS.media.heroPosterUrl
    heroVideoFit := q.heroVideoFit.getD DEFAULT_SITE_SETTINGS.media.heroVideoFit
    heroVideoPosition := q.heroVideoPosition.getD DEFAULT_SITE_SETTINGS.media.heroVideoPosition }

/-- Merge of the `promotions` section: spread plus an `Array.isArray` check
on `items`. -/
def mergePromotions (p : Option IncomingPromotions) : Promotions :=
  let q := p.getD {}
  { enabled := q.enabled.getD DEFAULT_SITE_SETTINGS.promotions.enabled
    items :=
      match q.items with
      | some (JArr.arr xs) => xs
      | _ => DEFAULT_SITE_SETTINGS.promotions.items }

/-- Merge of `gallery.featuredNails`: spread plus an `Array.isArray` check
on `imageUrls`. -/
def mergeFeaturedNails (p : Option IncomingFeaturedNails) : FeaturedNails :=
  let q := p.getD {}
  { enabled := q.enabled.getD DEFAULT_SITE_SETTINGS.gallery.featuredNails.enabled
    title := q.title.getD DEFAULT_SITE_SETTINGS.gallery.featuredNails.title
    imageUrls :=
      match q.imageUrls with
      | some (JArr.arr xs) => xs
      | _ => DEFAULT_SITE_SETTINGS.gallery.featuredNails.imageUrls }

/-- Merge of the legacy `gallery.featuredVideo`: plain spread. -/
def mergeFeaturedVideo (p : Option IncomingFeaturedVideo) : FeaturedVideo :=
  let q := p.getD {}
  { enabled := q.enabled.getD DEFAULT_SITE_SETTINGS.gallery.featuredVideo.enabled
    url := q.url.getD DEFAULT_SITE_SETTINGS.gallery.featuredVideo.url
    posterUrl := q.posterUrl.getD DEFAULT_SITE_SETTINGS.gallery.featuredVideo.posterUrl
    title := q.title.getD DEFAULT_SITE_SETTINGS.gallery.featuredVideo.title }

/-- Merge of `gallery.numbered`: spread plus an `Array.isArray` check on
`order`. -/
def mergeNumbered (p : Option IncomingNumbered) : Numbered :=
  let q := p.getD {}
  { folder := q.folder.getD DEFAULT_SITE_SETTINGS.gallery.numbered.folder
    start := q.start.getD DEFAULT_SITE_SETTINGS.gallery.numbered.start
    end_ := q.end_.getD DEFAULT_SITE_SETTINGS.gallery.numbered.end_
    extension := q.extension.getD DEFAULT_SITE_SETTINGS.gallery.numbered.extension
    order :=
      match q.order with
      | some (JArr.arr xs) => xs
      | _ => DEFAULT_SITE_SETTINGS.gallery.numbered.order }

/-- Merge of the `gallery` section: spread, a `typeof === "number"` check on
`assetVersion`, a `??` fallback on `tileFit`, deep merges of the three
subsections, and an `Array.isArray` check on `customImages`. -/
def mergeGallery (p : Option IncomingGallery) : Gallery :=
  let q := p.getD {}
  { assetVersion :=
      match q.assetVersion with
      | some (JNum.num n) => n
      | _ => DEFAULT_SITE_SETTINGS.gallery.assetVersion
    mode := q.mode.getD DEFAULT_SITE_SETTINGS.gallery.mode
    initialCount := q.initialCount.getD DEFAULT_SITE_SETTINGS.gallery.initialCount
    pageSize := q.pageSize.getD DEFAULT_SITE_SETTINGS.gallery.pageSize
    tileFit := q.tileFit.getD DEFAULT_SITE_SETTINGS.gallery.tileFit
    featuredNails := mergeFeaturedNails q.featuredNails
    featuredVideo := mergeFeaturedVideo q.featuredVideo
    numbered := mergeNumbered q.numbered
    customImages :=
      match q.customImages with
      | some (JArr.arr xs) => xs
      | _ => DEFAULT_SITE_SETTINGS.gallery.customImages }

/-- `mergeSettings`: heal an externally sourced partial document onto the
compiled-in defaults, section by section (`null` input gives a copy of the
defaults). -/
def mergeSettings (p : Option IncomingSettings) : SiteSettings :=
  match p with
  | none => DEFAULT_SITE_SETTINGS
  | some s =>
    { contact := mergeContact s.contact
      socials := mergeSocials s.socials
      media := mergeMedia s.media
      promotions := mergePromotions s.promotions
      gallery := mergeGallery s.gallery }

/-- `loadFromLocalStorage`: read the cached string (`none` models an absent
cache entry); an unparseable entry (`parse raw = none` models a
`JSON.parse` failure) falls back to a copy of the defaults, a parsed one is
healed through `mergeSettings`.  In this pure embedding the `deepClone` of
the source (a JSON round-trip) is the identity on values. -/
def loadFromLocalStorage (cache : Option String)
    (parse : String → Option IncomingSettings) : SiteSettings :=
  match cache with
  | none => DEFAULT_SITE_SETTINGS
  | some raw =>
    match parse raw with
    | none => DEFAULT_SITE_SETTINGS
    | some p => mergeSettings (some p)

/-- JavaScript `n || d` for integer-valued numbers: `0` is falsy. -/
def jsOr (n d : Int) : Int :=
  if n = 0 then d else n

/-- The `.replace(/^\./, "")` of the source: remove one leading dot. -/
def stripLeadingDot (l : List Char) : List Char :=
  match l with
  | [] => []
  | c :: t => if c == '.' then t else c :: t

/-- The extension normalisation `(extension || "jpeg").replace(/^\./, "")`
shared by `buildGalleryImageList` and `normalizeFeaturedUrl`. -/
def extNormS (e : String) : String :=
  String.mk (stripLeadingDot (if e.data.isEmpty then "jpeg".data else e.data))

/-- The inclusive integer range `[a..b]` (empty when `b < a`), built as the
source builds `range` from `safeStart`/`safeEnd`. -/
def intRange (a b : Int) : List Int :=
  (List.range (b + 1 - a).toNat).map (fun (i : Nat) => a + (i : Int))

/-- Worker for first-occurrence deduplication: `seen` is the set of values
already emitted. -/
def dedupFirstAux (seen : List Int) : List Int → List Int
  | [] => []
  | a :: l =>
    if a ∈ seen then dedupFirstAux seen l
    else a :: dedupFirstAux (a :: seen) l

/-- JavaScript `Array.from(new Set(list))`: deduplicate keeping the first
occurrence of each value, preserving order. -/
def dedupFirst (l : List Int) : List Int :=
  dedupFirstAux [] l

/-- `buildGalleryImageList`: custom mode filters falsy entries out of
`customImages`; numbered mode clamps the range, optionally applies the
manual order (restricted to the range and deduplicated, with the remaining
range appended in ascending order) and formats each number as
`folder/n.ext?v=version`. -/
def buildGalleryImageList (s : SiteSettings) : List String :=
  if s.gallery.mode = "custom" then
    s.gallery.customImages.filter (fun x => !(x == ""))
  else
    let n := s.gallery.numbered
    let safeStart := max 1 (jsOr n.start 1)
    let safeEnd := max safeStart (jsOr n.end_ safeStart)
    let ext := extNormS n.extension
    let v := s.gallery.assetVersion
    let range := intRange safeStart safeEnd
    let manual := !n.order.isEmpty
    let baseOrdered :=
      if manual then
        dedupFirst (n.order.filter (fun k => decide (safeStart ≤ k) && decide (k ≤ safeEnd)))
      else []
    let orderedNumbers :=
      if manual then baseOrdered ++ range.filter (fun k => !(baseOrdered.contains k))
      else range
    orderedNumbers.map (fun k =>
      n.folder ++ "/" ++ toString k ++ "." ++ ext ++ "?v=" ++ toString v)

/-- The display filter of the `Specials` component, applied to one
promotion.  `parseDate` stands for `new Date(str).getTime()`: `none` models
`NaN`, `some t` a finite timestamp. -/
def displayEligible (parseDate : String → Option Int) (now : Int)
    (x : Promotion) : Bool :=
  if x.title.trim.isEmpty then false
  else if x.validUntil.isEmpty then true
  else
    match parseDate x.validUntil with
    | none => true
    | some t => decide (t ≥ now)

/-- The promotion list the `Specials` component renders: empty when the
section is disabled, otherwise the display-eligible promotions in stored
order, truncated by `slice(0, 12)`. -/
def specialsItems (parseDate : String → Option Int) (now : Int)
    (enabled : Bool) (items : List Promotion) : List Promotion :=
  if !enabled then []
  else (items.filter (displayEligible parseDate now)).take 12

/-- JavaScript `String.prototype.trim` on a character list: strip whitespace
from both ends. -/
def trimL (l : List Char) : List Char :=
  ((l.dropWhile Char.isWhitespace).reverse.dropWhile Char.isWhitespace).reverse

/-- The case-insensitive test `/^https?:\/\//i`. -/
def isHttp (url : List Char) : Bool :=
  List.isPrefixOf "http://".data (url.map Char.toLower) ||
    List.isPrefixOf "https://".data (url.map Char.toLower)

/-- The shorthand step: a purely numeric entry (`/^\d+$/`) expands to
`folder/digits.ext`. -/
def shorthandStep (folder ext : List Char) (url : List Char) : List Char :=
  if !url.isEmpty && url.all Char.isDigit then
    folder ++ '/' :: (url ++ '.' :: ext)
  else url

/-- The leading-slash normalisation for non-absolute entries: a path
starting `gallery/` gets a slash, a bare filename is placed under
`/gallery/`, any other relative path gets a leading slash. -/
def slashStep (url : List Char) : List Char :=
  let url1 := if List.isPrefixOf "gallery/".data url then '/' :: url else url
  if !(List.isPrefixOf "/".data url1) then
    if !(url1.contains '/') then "/gallery/".data ++ url1 else '/' :: url1
  else url1

/-- The last segment of a path: `pathOnly.split("/").pop()`. -/
def lastSegment (l : List Char) : List Char :=
  (l.reverse.takeWhile (fun c => !(c == '/'))).reverse

/-- The extension-append step: if the final path segment (before any query
string) has no dot, append `.ext` and re-attach the query string. -/
def extFix (ext : List Char) (url : List Char) : List Char :=
  let pathOnly := url.takeWhile (fun c => !(c == '?'))
  let last := lastSegment pathOnly
  if !last.isEmpty && !(last.contains '.') then
    pathOnly ++ '.' :: (ext ++ (if url.contains '?' then url.dropWhile (fun c => !(c == '?')) else []))
  else url

/-- Steps 3 and 4 of `normalizeFeaturedUrl`: non-absolute entries are
turned into internal paths and given an extension; absolute http(s) URLs
pass through. -/
def pathStep (ext : List Char) (url : List Char) : List Char :=
  if !(isHttp url) then extFix ext (slashStep url) else url

/-- Does a version-parameter match `[?&]v=\d+` start at the head of the
list? -/
def vMatchAt (l : List Char) : Bool :=
  match l with
  | c0 :: c1 :: c2 :: c3 :: _ =>
    (c0 == '?' || c0 == '&') && c1 == 'v' && c2 == '=' && c3.isDigit
  | _ => false

/-- The test `/[?&]v=\d+/.test(url)`: a match starts at some position. -/
def hasVMatch : List Char → Bool
  | [] => false
  | c :: rest => vMatchAt (c :: rest) || hasVMatch rest

/-- The replacement `url.replace(/([?&]v=)\d+/, "$1" + v)`: at the first
match, keep the `[?&]v=` and swap the maximal digit run for `vs`. -/
def replaceVDigits (vs : List Char) : List Char → List Char
  | [] => []
  | c :: rest =>
    if vMatchAt (c :: rest) then
      c :: 'v' :: '=' :: (vs ++ (rest.drop 2).dropWhile Char.isDigit)
    else c :: replaceVDigits vs rest

/-- The decimal rendering of the asset version (`${v}` in the source). -/
def digitsOf (v : Int) : List Char :=
  (toString v).data

/-- The cache-busting step: on internal URLs (prefix `/gallery/` or
`folder/`), replace an existing `v=` parameter or append one with `?`/`&`
as appropriate; external URLs pass through. -/
def bustStep (folder : List Char) (v : Int) (url : List Char) : List Char :=
  let isInternal :=
    List.isPrefixOf "/gallery/".data url || List.isPrefixOf (folder ++ ['/']) url
  if isInternal then
    if hasVMatch url then replaceVDigits (digitsOf v) url
    else
      url ++ (if url.contains '?' then '&' :: 'v' :: '=' :: digitsOf v
              else '?' :: 'v' :: '=' :: digitsOf v)
  else url

/-- `normalizeFeaturedUrl` on character lists: trim, drop empty entries,
expand numeric shorthand, normalise relative paths, then cache-bust
internal assets. -/
def normalizeFeaturedUrlL (folder0 ext0 : List Char) (v : Int)
    (input : List Char) : List Char :=
  let url := trimL input
  if url.isEmpty then []
  else
    let folder := if folder0.isEmpty then "/gallery".data else folder0
    let ext := stripLeadingDot (if ext0.isEmpty then "jpeg".data else ext0)
    bustStep folder v (pathStep ext (shorthandStep folder ext url))

/-- `normalizeFeaturedUrl` at the `String` level, as called on each entry of
`featuredNails.imageUrls` (with the configured numbered folder and
extension in scope). -/
def normalizeFeaturedUrl (folder ext : String) (v : Int) (input : String) : String :=
  String.mk (normalizeFeaturedUrlL folder.data ext.data v input.data)

/-- The scenario settings of the spec: numbered mode, range 1..3, extension
`jpeg`, folder `/gallery`, empty order, asset version 1. -/
def numberedScenario : SiteSettings :=
  { DEFAULT_SITE_SETTINGS with
      gallery := { DEFAULT_SITE_SETTINGS.gallery with
        numbered := { DEFAULT_SITE_SETTINGS.gallery.numbered with end_ := 3 } } }

/-- The same scenario with the manual order `[3, 1]`. -/
def manualScenario : SiteSettings :=
  { DEFAULT_SITE_SETTINGS with
      gallery := { DEFAULT_SITE_SETTINGS.gallery with
        numbered := { DEFAULT_SITE_SETTINGS.gallery.numbered with
          end_ := 3
          order := [3, 1] } } }

/-- A custom-mode scenario: two real entries around an empty one. -/
def customScenario : SiteSettings :=
  { DEFAULT_SITE_SETTINGS with
      gallery := { DEFAULT_SITE_SETTINGS.gallery with
        mode := "custom"
        customImages := ["https://cdn.x.com/a.png", "", "/gallery/7.jpeg"] } }

/-- An incoming document carrying only `contact.email`. -/
def emailOnlyDoc : IncomingSettings :=
  { contact := some { email := some "a@b.com" } }

/-- An incoming document whose `contact.addressLines` is present but is not
an array. -/
def badAddressDoc : IncomingSettings :=
  { contact := some { addressLines := some (JArr.notArr 0) } }

/-- An incoming document whose checked fields are all present with the
wrong shape. -/
def badShapesDoc : IncomingSettings :=
  { promotions := some { items := some (JArr.notArr 1) }
    gallery := some
      { assetVersion := some (JNum.notNum 2)
        featuredNails := some { imageUrls := some (JArr.notArr 3) }
        numbered := some { order := some (JArr.notArr 4) }
        customImages := some (JArr.notArr 5) } }

/-- A promotion that is always eligible (empty expiry, nonempty title). -/
def promo (i : Nat) : Promotion :=
  { id := toString i
    title := "Promo " ++ toString i
    description := ""
    badge := ""
    ctaText := ""
    imageUrl := ""
    validUntil := "" }

/-- Length of the inclusive integer range. -/
lemma intRange_length (a b : Int) : (intRange a b).length = (b + 1 - a).toNat := by
  rw [intRange, List.length_map, List.length_range]

/-- Entry `i` of the inclusive integer range is `a + i`. -/
lemma intRange_get (a b : Int) (i : Nat) (h : i < (intRange a b).length) :
    (intRange a b).get ⟨i, h⟩ = a + (i : Int) := by
  simp only [intRange, List.get_eq_getElem, List.getElem_map, List.getElem_range]

/-- Membership in the inclusive integer range. -/
lemma mem_intRange {x a b : Int} : x ∈ intRange a b ↔ a ≤ x ∧ x ≤ b := by
  rw [intRange]
  rw [List.mem_map]
  constructor
  · rintro ⟨i, hi, rfl⟩
    rw [List.mem_range] at hi
    omega
  · rintro ⟨h1, h2⟩
    refine ⟨(x - a).toNat, ?_, ?_⟩
    · rw [List.mem_range]
      omega
    · omega

/-- The inclusive integer range has no duplicates. -/
lemma nodup_intRange (a b : Int) : (intRange a b).Nodup := by
  rw [intRange]
  refine List.Nodup.map ?_ (List.nodup_range _)
  intro i j h
  dsimp only at h
  omega

/-- Membership after first-occurrence deduplication with a `seen` set. -/
lemma mem_dedupFirstAux (x : Int) :
    ∀ (l seen : List Int), x ∈ dedupFirstAux seen l ↔ x ∈ l ∧ x ∉ seen := by
  intro l
  induction l with
  | nil => intro seen; simp [dedupFirstAux]
  | cons a t ih =>
    intro seen
    by_cases ha : a ∈ seen
    · rw [show dedupFirstAux seen (a :: t) = dedupFirstAux seen t from by
        simp [dedupFirstAux, ha]]
      rw [ih seen]
      constructor
      · rintro ⟨h1, h2⟩
        exact ⟨List.mem_cons_of_mem a h1, h2⟩
      · rintro ⟨h1, h2⟩
        rcases List.mem_cons.mp h1 with h1 | h1
        · exact absurd (h1 ▸ ha) h2
        · exact ⟨h1, h2⟩
    · rw [show dedupFirstAux seen (a :: t) = a :: dedupFirstAux (a :: seen) t from by
        simp [dedupFirstAux, ha]]
      rw [List.mem_cons, ih (a :: seen)]
      constructor
      · rintro (rfl | ⟨h1, h2⟩)
        · exact ⟨List.mem_cons_self x t, ha⟩
        · rw [List.mem_cons] at h2
          push_neg at h2
          exact ⟨List.mem_cons_of_mem a h1, h2.2⟩
      · rintro ⟨h1, h2⟩
        rcases List.mem_cons.mp h1 with rfl | h1
        · exact Or.inl rfl
        · by_cases hxa : x = a
          · exact Or.inl hxa
          · exact Or.inr ⟨h1, by simp [List.mem_cons, hxa, h2]⟩

/-- First-occurrence deduplication yields a duplicate-free list. -/
lemma nodup_dedupFirstAux : ∀ (l seen : List Int), (dedupFirstAux seen l).Nodup := by
  intro l
  induction l with
  | nil => intro seen; simp [dedupFirstAux]
  | cons a t ih =>
    intro seen
    by_cases ha : a ∈ seen
    · rw [show dedupFirstAux seen (a :: t) = dedupFirstAux seen t from by
        simp [dedupFirstAux, ha]]
      exact ih seen
    · rw [show dedupFirstAux seen (a :: t) = a :: dedupFirstAux (a :: seen) t from by
        simp [dedupFirstAux, ha]]
      refine List.nodup_cons.mpr ⟨?_, ih (a :: seen)⟩
      intro hmem
      exact ((mem_dedupFirstAux a t (a :: seen)).mp hmem).2 (List.mem_cons_self a seen)

/-- Membership in `dedupFirst`. -/
lemma mem_dedupFirst {x : Int} {l : List Int} : x ∈ dedupFirst l ↔ x ∈ l := by
  rw [dedupFirst, mem_dedupFirstAux]
  simp

/-- `dedupFirst` is duplicate-free. -/
lemma nodup_dedupFirst (l : List Int) : (dedupFirst l).Nodup :=
  nodup_dedupFirstAux l []

/-- On a lawful `BEq`, `contains` agrees with membership. -/
lemma contains_eq_true_iff (l : List Int) (x : Int) : l.contains x = true ↔ x ∈ l := by
  induction l with
  | nil => simp [List.contains, List.elem]
  | cons a t ih =>
    rw [show (a :: t).contains x = ((x == a) || t.contains x) from rfl]
    rw [List.mem_cons]
    rw [Bool.or_eq_true, ih]
    constructor
    · rintro (h | h)
      · exact Or.inl (eq_of_beq h)
      · exact Or.inr h
    · rintro (rfl | h)
      · exact Or.inl (beq_self_eq_true x)
      · exact Or.inr h

/-- A duplicate-free selection followed by the unselected remainder is a
permutation of the whole range: the combinatorial core of the manual-order
resolution. -/
lemma perm_manual (b r : List Int) (hb : b.Nodup) (hsub : ∀ x ∈ b, x ∈ r)
    (hr : r.Nodup) :
    (b ++ r.filter (fun k => !(b.contains k))).Perm r := by
  rw [List.perm_iff_count]
  intro x
  rw [List.count_append]
  by_cases hx : x ∈ b
  · have h1 : b.count x = 1 := List.count_eq_one_of_mem hb hx
    have h2 : (r.filter (fun k => !(b.contains k))).count x = 0 := by
      rw [List.count_eq_zero]
      intro hmem
      have h3 := (List.mem_filter.mp hmem).2
      rw [Bool.not_eq_true'] at h3
      rw [← contains_eq_true_iff b x] at hx
      rw [hx] at h3
      cases h3
    have h3 : r.count x = 1 := List.count_eq_one_of_mem hr (hsub x hx)
    omega
  · have h1 : b.count x = 0 := List.count_eq_zero.mpr hx
    have h2 : (r.filter (fun k => !(b.contains k))).count x = r.count x := by
      rw [List.count_filter]
      have hc : (b.contains x) = false := by
        cases h : b.contains x with
        | false => rfl
        | true => exact absurd ((contains_eq_true_iff b x).mp h) hx
      rw [hc]
      simp
    omega

/-- A string differing from the empty string has a nonempty character
list. -/
lemma data_ne_nil (e : String) (h : e ≠ "") : e.data ≠ [] := by
  intro hd
  apply h
  cases e with
  | mk d =>
    simp only at hd
    subst hd
    rfl

/-- The extension normalisation is the identity on a nonempty extension
with no leading dot. -/
lemma extNormS_eq_self (e : String) (h1 : e ≠ "") (h2 : e.data.head? ≠ some '.') :
    extNormS e = e := by
  have hd : e.data ≠ [] := data_ne_nil e h1
  rcases he : e.data with _ | ⟨c, t⟩
  · exact absurd he hd
  · have hc : (c == '.') = false := by
      cases h : (c == '.') with
      | false => rfl
      | true =>
        refine absurd ?_ h2
        rw [he]
        simp [eq_of_beq h]
    have hm : extNormS e = String.mk (c :: t) := by
      rw [extNormS, he]
      simp [stripLeadingDot, hc]
    rw [hm, ← he]

/-- Numbered-mode resolution with an empty manual order reduces to the
formatted ascending range (under well-formed bounds). -/
lemma build_numbered_empty (s : SiteSettings)
    (hm : ¬s.gallery.mode = "custom")
    (ho : s.gallery.numbered.order = [])
    (h1 : 1 ≤ s.gallery.numbered.start)
    (h2 : s.gallery.numbered.start ≤ s.gallery.numbered.end_) :
    buildGalleryImageList s =
      (intRange s.gallery.numbered.start s.gallery.numbered.end_).map (fun k =>
        s.gallery.numbered.folder ++ "/" ++ toString k ++ "." ++
          extNormS s.gallery.numbered.extension ++ "?v=" ++
          toString s.gallery.assetVersion) := by
  have e1 : jsOr s.gallery.numbered.start 1 = s.gallery.numbered.start := by
    rw [jsOr, if_neg]
    omega
  have e3 : jsOr s.gallery.numbered.end_ s.gallery.numbered.start =
      s.gallery.numbered.end_ := by
    rw [jsOr, if_neg]
    omega
  unfold buildGalleryImageList
  rw [if_neg hm]
  simp only [ho, List.isEmpty_nil, Bool.not_true, e1, e3, max_eq_right h1,
    max_eq_right h2, Bool.false_eq_true, if_false]

/-- Numbered-mode resolution with a nonempty manual order reduces to the
deduplicated in-range selection followed by the formatted remainder of the
ascending range (under well-formed bounds). -/
lemma build_numbered_manual (s : SiteSettings)
    (hm : ¬s.gallery.mode = "custom")
    (ho : ¬s.gallery.numbered.order = [])
    (h1 : 1 ≤ s.gallery.numbered.start)
    (h2 : s.gallery.numbered.start ≤ s.gallery.numbered.end_) :
    buildGalleryImageList s =
      ((dedupFirst (s.gallery.numbered.order.filter (fun k =>
          decide (s.gallery.numbered.start ≤ k) &&
          decide (k ≤ s.gallery.numbered.end_)))) ++
        (intRange s.gallery.numbered.start s.gallery.numbered.end_).filter (fun k =>
          !((dedupFirst (s.gallery.numbered.order.filter (fun k =>
              decide (s.gallery.numbered.start ≤ k) &&
              decide (k ≤ s.gallery.numbered.end_)))).contains k))).map (fun k =>
        s.gallery.numbered.folder ++ "/" ++ toString k ++ "." ++
          extNormS s.gallery.numbered.extension ++ "?v=" ++
          toString s.gallery.assetVersion) := by
  have e1 : jsOr s.gallery.numbered.start 1 = s.gallery.numbered.start := by
    rw [jsOr, if_neg]
    omega
  have e3 : jsOr s.gallery.numbered.end_ s.gallery.numbered.start =
      s.gallery.numbered.end_ := by
    rw [jsOr, if_neg]
    omega
  have hne : s.gallery.numbered.order.isEmpty = false := by
    rcases hh : s.gallery.numbered.order with _ | ⟨a, t⟩
    · exact absurd hh ho
    · rfl
  unfold buildGalleryImageList
  rw [if_neg hm]
  simp only [hne, e1, e3, max_eq_right h1, max_eq_right h2, Bool.not_false,
    if_true]

/-- Index lemma for the formatted ascending range. -/
lemma intRange_getElem (a b : Int) (i : Nat) (h : i < (intRange a b).length) :
    (intRange a b)[i] = a + (i : Int) := by
  simp only [intRange, List.getElem_map, List.getElem_range]

/-- Indexing is invariant under list equality. -/
lemma get_congr_list {α : Type} {l l' : List α} (hl : l = l') (i : Nat)
    (h : i < l.length) :
    l.get ⟨i, h⟩ = l'.get ⟨i, hl ▸ h⟩ := by
  subst hl
  rfl

/-- Entry `i` of the formatted ascending range is the format of `a + i`. -/
lemma map_intRange_get (a b : Int) (f : Int → String) (i : Nat)
    (h : i < ((intRange a b).map f).length) :
    ((intRange a b).map f).get ⟨i, h⟩ = f (a + (i : Int)) := by
  rw [List.get_eq_getElem, List.getElem_map]
  congr 1
  have h' : i < (intRange a b).length := by simpa using h
  exact intRange_getElem a b i h'

/-- C1: numbered-mode resolution with empty order: for all settings with
mode `numbered`, empty `order`, integer bounds `1 ≤ start ≤ end` and a
well-formed extension, the result has exactly `end - start + 1` entries and
the entry at index `i` is the formatted string for the integer `start + i`
(so the entries are in strictly ascending numeric order); moreover the
spec's scenario `start=1, end=3` yields the three listed URLs. -/
theorem buildGallery_numbered_natural :
    (∀ s : SiteSettings,
      s.gallery.mode = "numbered" →
      s.gallery.numbered.order = [] →
      1 ≤ s.gallery.numbered.start →
      s.gallery.numbered.start ≤ s.gallery.numbered.end_ →
      s.gallery.numbered.extension ≠ "" →
      s.gallery.numbered.extension.data.head? ≠ some '.' →
      ((buildGalleryImageList s).length : Int) =
        s.gallery.numbered.end_ - s.gallery.numbered.start + 1 ∧
      ∀ (i : Nat) (h : i < (buildGalleryImageList s).length),
        (buildGalleryImageList s).get ⟨i, h⟩ =
          s.gallery.numbered.folder ++ "/" ++
            toString (s.gallery.numbered.start + (i : Int)) ++ "." ++
            s.gallery.numbered.extension ++ "?v=" ++
            toString s.gallery.assetVersion) ∧
    buildGalleryImageList numberedScenario =
      ["/gallery/1.jpeg?v=1", "/gallery/2.jpeg?v=1", "/gallery/3.jpeg?v=1"] := by
  constructor
  · intro s hmode ho h1 h2 he hdot
    have hm : ¬s.gallery.mode = "custom" := by
      rw [hmode]
      decide
    have hb := build_numbered_empty s hm ho h1 h2
    rw [extNormS_eq_self _ he hdot] at hb
    constructor
    · rw [hb, List.length_map, intRange_length]
      omega
    · intro i h
      rw [get_congr_list hb i h, map_intRange_get]
  · decide

/-- Witness for C1: the claim's own scenario satisfies the hypotheses and
the length formula. -/
theorem buildGallery_numbered_natural_witness :
    ((1 : Int) ≤ 1 ∧ (1 : Int) ≤ 3) ∧
    ((buildGalleryImageList numberedScenario).length : Int) = 3 - 1 + 1 := by
  refine ⟨⟨by decide, by decide⟩, ?_⟩
  exact (buildGallery_numbered_natural.1 numberedScenario rfl rfl (by decide)
    (by decide) (by decide) (by decide)).1

/-- C2: numbered-mode resolution with a nonempty manual order: for all
settings with mode `numbered`, nonempty `order` (out-of-range values and
duplicates allowed), integer bounds `1 ≤ start ≤ end` and a well-formed
extension, the result is exactly the manual order restricted to the range
and deduplicated keeping first occurrences, followed by every remaining
in-range integer in ascending order, each formatted; consequently it is a
permutation of the formatted ascending range — every in-range integer
appears exactly once — and the length always equals `end - start + 1`;
moreover the spec's scenario `order=[3,1]` yields the images for 3, 1, 2 in
that order. -/
theorem buildGallery_numbered_manual_order :
    (∀ s : SiteSettings,
      s.gallery.mode = "numbered" →
      ¬s.gallery.numbered.order = [] →
      1 ≤ s.gallery.numbered.start →
      s.gallery.numbered.start ≤ s.gallery.numbered.end_ →
      s.gallery.numbered.extension ≠ "" →
      s.gallery.numbered.extension.data.head? ≠ some '.' →
      ((buildGalleryImageList s).length : Int) =
        s.gallery.numbered.end_ - s.gallery.numbered.start + 1 ∧
      buildGalleryImageList s =
        ((dedupFirst (s.gallery.numbered.order.filter (fun k =>
            decide (s.gallery.numbered.start ≤ k) &&
            decide (k ≤ s.gallery.numbered.end_)))) ++
          (intRange s.gallery.numbered.start s.gallery.numbered.end_).filter (fun k =>
            !((dedupFirst (s.gallery.numbered.order.filter (fun k =>
                decide (s.gallery.numbered.start ≤ k) &&
                decide (k ≤ s.gallery.numbered.end_)))).contains k))).map (fun k =>
          s.gallery.numbered.folder ++ "/" ++ toString k ++ "." ++
            s.gallery.numbered.extension ++ "?v=" ++
            toString s.gallery.assetVersion) ∧
      (buildGalleryImageList s).Perm
        ((intRange s.gallery.numbered.start s.gallery.numbered.end_).map (fun k =>
          s.gallery.numbered.folder ++ "/" ++ toString k ++ "." ++
            s.gallery.numbered.extension ++ "?v=" ++
            toString s.gallery.assetVersion))) ∧
    buildGalleryImageList manualScenario =
      ["/gallery/3.jpeg?v=1", "/gallery/1.jpeg?v=1", "/gallery/2.jpeg?v=1"] := by
  constructor
  · intro s hmode ho h1 h2 he hdot
    have hm : ¬s.gallery.mode = "custom" := by
      rw [hmode]
      decide
    have hb := build_numbered_manual s hm ho h1 h2
    rw [extNormS_eq_self _ he hdot] at hb
    have hsub : ∀ x ∈ dedupFirst (s.gallery.numbered.order.filter (fun k =>
        decide (s.gallery.numbered.start ≤ k) &&
        decide (k ≤ s.gallery.numbered.end_))),
        x ∈ intRange s.gallery.numbered.start s.gallery.numbered.end_ := by
      intro x hx
      have hx2 := mem_dedupFirst.mp hx
      have hx3 := (List.mem_filter.mp hx2).2
      rw [Bool.and_eq_true, decide_eq_true_eq, decide_eq_true_eq] at hx3
      exact mem_intRange.mpr hx3
    have hperm := perm_manual _ _
      (nodup_dedupFirst (s.gallery.numbered.order.filter (fun k =>
        decide (s.gallery.numbered.start ≤ k) &&
        decide (k ≤ s.gallery.numbered.end_))))
      hsub
      (nodup_intRange s.gallery.numbered.start s.gallery.numbered.end_)
    have hperm2 : (buildGalleryImageList s).Perm
        ((intRange s.gallery.numbered.start s.gallery.numbered.end_).map (fun k =>
          s.gallery.numbered.folder ++ "/" ++ toString k ++ "." ++
            s.gallery.numbered.extension ++ "?v=" ++
            toString s.gallery.assetVersion)) := by
      rw [hb]
      exact hperm.map _
    refine ⟨?_, hb, hperm2⟩
    rw [hperm2.length_eq, List.length_map, intRange_length]
    omega
  · decide

/-- Witness for C2: the claim's own scenario satisfies the hypotheses and
the length formula. -/
theorem buildGallery_numbered_manual_order_witness :
    ((1 : Int) ≤ 1 ∧ (1 : Int) ≤ 3) ∧
    ((buildGalleryImageList manualScenario).length : Int) = 3 - 1 + 1 := by
  refine ⟨⟨by decide, by decide⟩, ?_⟩
  exact (buildGallery_numbered_manual_order.1 manualScenario rfl (by decide)
    (by decide) (by decide) (by decide) (by decide)).1

/-- C8: in custom mode the resolution returns exactly the stored
`customImages` with empty entries removed, in stored order and otherwise
unmodified (in particular no version parameter is appended). -/
theorem buildGallery_custom_passthrough :
    ∀ s : SiteSettings, s.gallery.mode = "custom" →
      buildGalleryImageList s =
        s.gallery.customImages.filter (fun x => decide (x ≠ "")) := by
  intro s h
  have hfun : (fun x : String => !(x == "")) = (fun x : String => decide (x ≠ "")) := by
    funext x
    by_cases hx : x = "" <;> simp [hx]
  rw [buildGalleryImageList, if_pos h, hfun]

/-- Witness for C8: the custom scenario keeps its two nonempty entries
unchanged and in order. -/
theorem buildGallery_custom_passthrough_witness :
    buildGalleryImageList customScenario =
      customScenario.gallery.customImages.filter (fun x => decide (x ≠ "")) :=
  buildGallery_custom_passthrough customScenario rfl

/-- C3: the merge is field-by-field and default-healing: merging a document
carrying only `contact.email` onto the defaults yields the full default
document with only that one field changed, and any section absent from the
incoming document is taken entirely from the defaults. -/
theorem mergeSettings_default_healing :
    mergeSettings (some emailOnlyDoc) =
      { DEFAULT_SITE_SETTINGS with
          contact := { DEFAULT_SITE_SETTINGS.contact with email := "a@b.com" } } ∧
    (∀ p : IncomingSettings, p.contact = none →
      (mergeSettings (some p)).contact = DEFAULT_SITE_SETTINGS.contact) ∧
    (∀ p : IncomingSettings, p.socials = none →
      (mergeSettings (some p)).socials = DEFAULT_SITE_SETTINGS.socials) ∧
    (∀ p : IncomingSettings, p.media = none →
      (mergeSettings (some p)).media = DEFAULT_SITE_SETTINGS.media) ∧
    (∀ p : IncomingSettings, p.promotions = none →
      (mergeSettings (some p)).promotions = DEFAULT_SITE_SETTINGS.promotions) ∧
    (∀ p : IncomingSettings, p.gallery = none →
      (mergeSettings (some p)).gallery = DEFAULT_SITE_SETTINGS.gallery) := by
  refine ⟨by decide, ?_, ?_, ?_, ?_, ?_⟩
  · intro p h
    show mergeContact p.contact = _
    rw [h]
    decide
  · intro p h
    show mergeSocials p.socials = _
    rw [h]
    decide
  · intro p h
    show mergeMedia p.media = _
    rw [h]
    decide
  · intro p h
    show mergePromotions p.promotions = _
    rw [h]
    decide
  · intro p h
    show mergeGallery p.gallery = _
    rw [h]
    decide

/-- Witness for C3: the empty incoming document heals every section from
the defaults. -/
theorem mergeSettings_default_healing_witness :
    (mergeSettings (some {})).contact = DEFAULT_SITE_SETTINGS.contact ∧
    (mergeSettings (some {})).gallery = DEFAULT_SITE_SETTINGS.gallery :=
  ⟨mergeSettings_default_healing.2.1 {} rfl,
   mergeSettings_default_healing.2.2.2.2.2 {} rfl⟩

/-- Counterexample to C4: the merge does not shape-check
`contact.addressLines` — an incoming non-array value is copied verbatim
instead of being replaced by the compiled-in default, so not every array
field of the merge result is an array. -/
theorem mergeSettings_addressLines_unchecked :
    (mergeSettings (some badAddressDoc)).contact.addressLines = JArr.notArr 0 ∧
    JArr.notArr 0 ≠ DEFAULT_SITE_SETTINGS.contact.addressLines := by
  decide

/-- C4 (amended): the merge shape-checks `promotions.items`,
`gallery.featuredNails.imageUrls`, `gallery.numbered.order`,
`gallery.customImages` (arrays) and `gallery.assetVersion` (number),
falling back to the compiled-in default when the incoming value is present
but of the wrong shape; `contact.addressLines`, however, is not
shape-checked: a present incoming value is copied verbatim. -/
theorem mergeSettings_shape_checks :
    (∀ (p : IncomingSettings) (c : IncomingContact) (w : JArr String),
      p.contact = some c → c.addressLines = some w →
      (mergeSettings (some p)).contact.addressLines = w) ∧
    (∀ (p : IncomingSettings) (q : IncomingPromotions) (t : Nat),
      p.promotions = some q → q.items = some (JArr.notArr t) →
      (mergeSettings (some p)).promotions.items =
        DEFAULT_SITE_SETTINGS.promotions.items) ∧
    (∀ (p : IncomingSettings) (g : IncomingGallery) (fn : IncomingFeaturedNails)
      (t : Nat),
      p.gallery = some g → g.featuredNails = some fn →
      fn.imageUrls = some (JArr.notArr t) →
      (mergeSettings (some p)).gallery.featuredNails.imageUrls =
        DEFAULT_SITE_SETTINGS.gallery.featuredNails.imageUrls) ∧
    (∀ (p : IncomingSettings) (g : IncomingGallery) (nb : IncomingNumbered)
      (t : Nat),
      p.gallery = some g → g.numbered = some nb →
      nb.order = some (JArr.notArr t) →
      (mergeSettings (some p)).gallery.numbered.order =
        DEFAULT_SITE_SETTINGS.gallery.numbered.order) ∧
    (∀ (p : IncomingSettings) (g : IncomingGallery) (t : Nat),
      p.gallery = some g → g.customImages = some (JArr.notArr t) →
      (mergeSettings (some p)).gallery.customImages =
        DEFAULT_SITE_SETTINGS.gallery.customImages) ∧
    (∀ (p : IncomingSettings) (g : IncomingGallery) (t : Nat),
      p.gallery = some g → g.assetVersion = some (JNum.notNum t) →
      (mergeSettings (some p)).gallery.assetVersion = 1) := by
  refine ⟨?_, ?_, ?_, ?_, ?_, ?_⟩
  · intro p c w hp hc
    show (mergeContact p.contact).addressLines = w
    rw [hp]
    simp [mergeContact, hc]
  · intro p q t hp hq
    show (mergePromotions p.promotions).items = _
    rw [hp]
    simp [mergePromotions, hq]
  · intro p g fn t hp hg hf
    show (mergeGallery p.gallery).featuredNails.imageUrls = _
    rw [hp]
    simp [mergeGallery, mergeFeaturedNails, hg, hf]
  · intro p g nb t hp hg hn
    show (mergeGallery p.gallery).numbered.order = _
    rw [hp]
    simp [mergeGallery, mergeNumbered, hg, hn]
  · intro p g t hp hg
    show (mergeGallery p.gallery).customImages = _
    rw [hp]
    simp [mergeGallery, hg]
  · intro p g t hp hg
    show (mergeGallery p.gallery).assetVersion = 1
    rw [hp]
    simp [mergeGallery, hg]
    rfl

/-- Witness for C4 (amended): a document with every checked field of the
wrong shape heals those fields from the defaults, while the unchecked
`addressLines` is copied verbatim. -/
theorem mergeSettings_shape_checks_witness :
    (mergeSettings (some badAddressDoc)).contact.addressLines = JArr.notArr 0 ∧
    (mergeSettings (some badShapesDoc)).promotions.items =
      DEFAULT_SITE_SETTINGS.promotions.items ∧
    (mergeSettings (some badShapesDoc)).gallery.featuredNails.imageUrls =
      DEFAULT_SITE_SETTINGS.gallery.featuredNails.imageUrls ∧
    (mergeSettings (some badShapesDoc)).gallery.numbered.order =
      DEFAULT_SITE_SETTINGS.gallery.numbered.order ∧
    (mergeSettings (some badShapesDoc)).gallery.customImages =
      DEFAULT_SITE_SETTINGS.gallery.customImages ∧
    (mergeSettings (some badShapesDoc)).gallery.assetVersion = 1 :=
  ⟨mergeSettings_shape_checks.1 badAddressDoc _ _ rfl rfl,
   mergeSettings_shape_checks.2.1 badShapesDoc _ 1 rfl rfl,
   mergeSettings_shape_checks.2.2.1 badShapesDoc _ _ 3 rfl rfl rfl,
   mergeSettings_shape_checks.2.2.2.1 badShapesDoc _ _ 4 rfl rfl rfl,
   mergeSettings_shape_checks.2.2.2.2.1 badShapesDoc _ 5 rfl rfl,
   mergeSettings_shape_checks.2.2.2.2.2 badShapesDoc _ 2 rfl rfl⟩

/-- C9: loading from the local cache never fails and treats corrupt content
exactly like an absent entry: an absent or unparseable cache yields the
default document, and a parsed cache is healed through the merge. -/
theorem loadFromLocalStorage_total :
    ∀ (parse : String → Option IncomingSettings) (raw : String),
      loadFromLocalStorage none parse = DEFAULT_SITE_SETTINGS ∧
      (parse raw = none →
        loadFromLocalStorage (some raw) parse = DEFAULT_SITE_SETTINGS) ∧
      (parse raw = none →
        loadFromLocalStorage (some raw) parse = loadFromLocalStorage none parse) ∧
      (∀ p, parse raw = some p →
        loadFromLocalStorage (some raw) parse = mergeSettings (some p)) := by
  intro parse raw
  refine ⟨rfl, ?_, ?_, ?_⟩
  · intro h
    simp [loadFromLocalStorage, h]
  · intro h
    simp [loadFromLocalStorage, h]
  · intro p h
    simp [loadFromLocalStorage, h]

/-- Witness for C9: a parser that always fails sends any cached string to
the default document. -/
theorem loadFromLocalStorage_total_witness :
    loadFromLocalStorage (some "corrupt") (fun _ => none) = DEFAULT_SITE_SETTINGS :=
  (loadFromLocalStorage_total (fun _ => none) "corrupt").2.1 rfl

/-- C7: a promotion passes the display filter of the `Specials` component
iff its trimmed title is nonempty and its `validUntil` is empty, fails to
parse to a timestamp, or parses to a timestamp at or after the current
time. -/
theorem displayEligible_iff :
    ∀ (parseDate : String → Option Int) (now : Int) (x : Promotion),
      displayEligible parseDate now x = true ↔
        (x.title.trim ≠ "" ∧
          (x.validUntil = "" ∨ parseDate x.validUntil = none ∨
            ∃ t, parseDate x.validUntil = some t ∧ now ≤ t)) := by
  intro parseDate now x
  rw [displayEligible]
  by_cases h1 : x.title.trim = ""
  · have : x.title.trim.isEmpty = true := (String.isEmpty_iff _).mpr h1
    rw [if_pos this]
    simp [h1]
  · have : x.title.trim.isEmpty = false := by
      cases h : x.title.trim.isEmpty with
      | false => rfl
      | true => exact absurd ((String.isEmpty_iff _).mp h) h1
    rw [this]
    simp only [Bool.false_eq_true, if_false]
    by_cases h2 : x.validUntil = ""
    · have : x.validUntil.isEmpty = true := (String.isEmpty_iff _).mpr h2
      rw [if_pos this]
      simp [h1, h2]
    · have : x.validUntil.isEmpty = false := by
        cases h : x.validUntil.isEmpty with
        | false => rfl
        | true => exact absurd ((String.isEmpty_iff _).mp h) h2
      rw [this]
      simp only [Bool.false_eq_true, if_false]
      rcases hp : parseDate x.validUntil with _ | t
      · simp [h1, h2, hp]
      · simp only [decide_eq_true_eq]
        constructor
        · intro ht
          exact ⟨h1, Or.inr (Or.inr ⟨t, rfl, ht⟩)⟩
        · rintro ⟨-, h3 | h3 | ⟨t', ht', hle⟩⟩
          · exact absurd h3 h2
          · cases h3
          · cases ht'
            exact hle

/-- C10: the `Specials` component renders at most 12 promotions: the
rendered list is the display-eligible promotions in stored order truncated
to the first 12 entries (and empty when the section is disabled). -/
theorem specialsItems_at_most_12 :
    ∀ (parseDate : String → Option Int) (now : Int) (e : Bool)
      (items : List Promotion),
      (specialsItems parseDate now e items).length ≤ 12 ∧
      (e = true → specialsItems parseDate now e items =
        (items.filter (displayEligible parseDate now)).take 12) ∧
      (e = false → specialsItems parseDate now e items = []) := by
  intro parseDate now e items
  cases e with
  | false =>
    refine ⟨?_, ?_, ?_⟩
    · simp [specialsItems]
    · intro h
      cases h
    · intro _
      rfl
  | true =>
    refine ⟨?_, ?_, ?_⟩
    · show ((items.filter (displayEligible parseDate now)).take 12).length ≤ 12
      rw [List.length_take]
      omega
    · intro _
      rfl
    · intro h
      cases h

/-- Witness for C10: thirteen always-eligible promotions are truncated to
the first twelve. -/
theorem specialsItems_at_most_12_witness :
    specialsItems (fun _ => none) 0 true ((List.range 13).map promo) =
      (((List.range 13).map promo).filter
        (displayEligible (fun _ => none) 0)).take 12 :=
  (specialsItems_at_most_12 (fun _ => none) 0 true ((List.range 13).map promo)).2.1 rfl

/-- C5: featured-URL normalisation with folder `/gallery` and extension
`jpeg`: a purely numeric entry expands into the numbered gallery folder
with the configured extension and current asset version, a bare filename
gains the internal `/gallery/` prefix and the extension, and an absolute
http(s) URL passes through unchanged with no version parameter. -/
theorem normalizeFeaturedUrl_shorthand :
    ∀ v : Int,
      normalizeFeaturedUrl "/gallery" "jpeg" v "12" =
        "/gallery/12.jpeg?v=" ++ toString v ∧
      normalizeFeaturedUrl "/gallery" "jpeg" v "nails1" =
        "/gallery/nails1.jpeg?v=" ++ toString v ∧
      normalizeFeaturedUrl "/gallery" "jpeg" v "https://cdn.x.com/a.png" =
        "https://cdn.x.com/a.png" := by
  intro v
  exact ⟨rfl, rfl, rfl⟩

/-- A separator that can open a version-parameter match is none of `v`,
`=`, or a digit. -/
lemma vstart_props (c : Char) (h : (c == '?' || c == '&') = true) :
    (c == 'v') = false ∧ (c == '=') = false ∧ c.isDigit = false := by
  rcases Bool.or_eq_true_iff.mp h with h' | h'
  · rw [show c = '?' from eq_of_beq h']
    decide
  · rw [show c = '&' from eq_of_beq h']
    decide

/-- Dropping the digit run at the front of `ds ++ b` stops exactly at `b`
when `ds` is all digits and `b` does not start with one. -/
lemma dropWhile_digits (ds b : List Char) (hds : ∀ c ∈ ds, c.isDigit = true)
    (hb : ∀ c, b.head? = some c → c.isDigit = false) :
    (ds ++ b).dropWhile Char.isDigit = b := by
  induction ds with
  | nil =>
    cases b with
    | nil => rfl
    | cons c t =>
      have hc := hb c rfl
      simp [List.dropWhile_cons, hc]
  | cons d ds ih =>
    have hd := hds d (List.mem_cons_self d ds)
    simp only [List.cons_append, List.dropWhile_cons, hd, if_true]
    exact ih (fun c hc => hds c (List.mem_cons_of_mem d hc))

/-- A version-parameter match is found somewhere in any list that embeds
one. -/
lemma hasVMatch_append (sep d : Char) (t : List Char)
    (hsep : (sep == '?' || sep == '&') = true) (hd : d.isDigit = true) :
    ∀ a : List Char, hasVMatch (a ++ sep :: 'v' :: '=' :: d :: t) = true := by
  intro a
  induction a with
  | nil =>
    simp [hasVMatch, vMatchAt, hsep, hd]
  | cons x a' ih =>
    show hasVMatch (x :: (a' ++ sep :: 'v' :: '=' :: d :: t)) = true
    simp only [hasVMatch]
    rw [ih]
    simp

/-- Core of the cache-bust replacement: on a list shaped
`a ++ sep v = digits b` whose front part `a` has no earlier match, the
replacement swaps exactly the digit run for `vs`. -/
lemma replaceVDigits_decomp (vs : List Char) (sep d : Char) (ds b : List Char)
    (hsep : (sep == '?' || sep == '&') = true) (hd : d.isDigit = true)
    (hds : ∀ c ∈ ds, c.isDigit = true)
    (hb : ∀ c, b.head? = some c → c.isDigit = false) :
    ∀ a : List Char, hasVMatch a = false →
      replaceVDigits vs (a ++ sep :: 'v' :: '=' :: d :: (ds ++ b)) =
        a ++ sep :: 'v' :: '=' :: (vs ++ b) := by
  intro a
  induction a with
  | nil =>
    intro _
    have hv : vMatchAt (sep :: 'v' :: '=' :: d :: (ds ++ b)) = true := by
      simp [vMatchAt, hsep, hd]
    simp only [List.nil_append, replaceVDigits, hv, if_true]
    have hdrop : (('v' :: '=' :: d :: (ds ++ b)).drop 2) = d :: (ds ++ b) := rfl
    rw [hdrop, show d :: (ds ++ b) = (d :: ds) ++ b from rfl]
    rw [dropWhile_digits (d :: ds) b ?_ hb]
    intro c hc
    rcases List.mem_cons.mp hc with rfl | hc'
    · exact hd
    · exact hds c hc'
  | cons x a' ih =>
    intro h
    rw [hasVMatch, Bool.or_eq_false_iff] at h
    obtain ⟨h1, h2⟩ := h
    have hv : vMatchAt (x :: (a' ++ sep :: 'v' :: '=' :: d :: (ds ++ b))) = false := by
      rcases a' with _ | ⟨y, a''⟩
      · simp [vMatchAt, (vstart_props sep hsep).1]
      · rcases a'' with _ | ⟨z, a'''⟩
        · simp [vMatchAt, (vstart_props sep hsep).2.1]
        · rcases a''' with _ | ⟨w, t'⟩
          · simp [vMatchAt, (vstart_props sep hsep).2.2]
          · simpa [vMatchAt] using h1
    show replaceVDigits vs (x :: (a' ++ sep :: 'v' :: '=' :: d :: (ds ++ b))) =
      x :: (a' ++ sep :: 'v' :: '=' :: (vs ++ b))
    simp only [replaceVDigits]
    rw [hv]
    simp only [Bool.false_eq_true, if_false]
    rw [ih h2]

/-- A successful `isPrefixOf` yields an append decomposition. -/
lemma isPrefixOf_exists {p l : List Char} (h : List.isPrefixOf p l = true) :
    ∃ t, l = p ++ t := by
  induction p generalizing l with
  | nil => exact ⟨l, rfl⟩
  | cons a p ih =>
    cases l with
    | nil => cases h
    | cons c t =>
      have h' : (a == c) = true ∧ List.isPrefixOf p t = true := by
        simpa [List.isPrefixOf] using h
      obtain ⟨t', rfl⟩ := ih h'.2
      refine ⟨t', ?_⟩
      rw [List.cons_append, show c = a from (eq_of_beq h'.1).symm]

/-- An internal URL (prefixed by `/gallery/` or by the effective folder) is
nonempty and not purely numeric. -/
lemma internal_url_facts (folder url : List Char)
    (hint : (List.isPrefixOf "/gallery/".data url ||
      List.isPrefixOf ((if folder.isEmpty then "/gallery".data else folder) ++ ['/'])
        url) = true) :
    url.isEmpty = false ∧ url.all Char.isDigit = false := by
  have hslash : '/' ∈ url := by
    rcases Bool.or_eq_true_iff.mp hint with h | h
    · obtain ⟨t, ht⟩ := isPrefixOf_exists h
      rw [ht]
      exact List.mem_append_left _ (by decide)
    · obtain ⟨t, ht⟩ := isPrefixOf_exists h
      rw [ht]
      exact List.mem_append_left _ (List.mem_append_right _ (by decide))
  constructor
  · rcases url with _ | ⟨c, t⟩
    · cases hslash
    · rfl
  · cases hA : url.all Char.isDigit
    · rfl
    · exact absurd (List.all_eq_true.mp hA '/' hslash) (by decide)

/-- Under the hypotheses that the input is already a trimmed, non-numeric,
path-normalised URL, `normalizeFeaturedUrlL` reduces to its cache-bust
step. -/
lemma normalize_reduces (folder ext : List Char) (V : Int) (url : List Char)
    (hne : url.isEmpty = false)
    (hdig : url.all Char.isDigit = false)
    (htrim : trimL url = url)
    (hpre : pathStep (stripLeadingDot (if ext.isEmpty then "jpeg".data else ext))
      url = url) :
    normalizeFeaturedUrlL folder ext V url =
      bustStep (if folder.isEmpty then "/gallery".data else folder) V url := by
  rw [normalizeFeaturedUrlL]
  rw [htrim]
  simp only [hne, Bool.false_eq_true, if_false]
  rw [show shorthandStep (if folder.isEmpty then "/gallery".data else folder)
      (stripLeadingDot (if ext.isEmpty then "jpeg".data else ext)) url = url from by
    simp [shorthandStep, hne, hdig]]
  rw [hpre]

/-- C6: for an internal featured URL already in final path form
(trimmed, path-normalised, prefixed by `/gallery/` or the configured
folder): if it contains a version parameter `[?&]v=digits`, normalisation
rewrites exactly the digits of that parameter to the current asset version
(no second parameter is appended); if it contains none, a `v=` parameter is
appended with `?` when the URL has no query string and `&` when it has
one. -/
theorem normalizeFeaturedUrl_cache_bust :
    (∀ (folder ext : String) (V : Int) (url a b : String) (sep d : Char)
      (ds : List Char),
      (sep == '?' || sep == '&') = true →
      d.isDigit = true →
      (∀ c ∈ ds, c.isDigit = true) →
      (∀ c, b.data.head? = some c → c.isDigit = false) →
      hasVMatch a.data = false →
      url.data = a.data ++ sep :: 'v' :: '=' :: d :: (ds ++ b.data) →
      (List.isPrefixOf "/gallery/".data url.data ||
        List.isPrefixOf
          ((if folder.data.isEmpty then "/gallery".data else folder.data) ++ ['/'])
          url.data) = true →
      trimL url.data = url.data →
      pathStep (stripLeadingDot (if ext.data.isEmpty then "jpeg".data else ext.data))
        url.data = url.data →
      normalizeFeaturedUrl folder ext V url =
        String.mk (a.data ++ sep :: 'v' :: '=' :: (digitsOf V ++ b.data))) ∧
    (∀ (folder ext : String) (V : Int) (url : String),
      hasVMatch url.data = false →
      (List.isPrefixOf "/gallery/".data url.data ||
        List.isPrefixOf
          ((if folder.data.isEmpty then "/gallery".data else folder.data) ++ ['/'])
          url.data) = true →
      trimL url.data = url.data →
      pathStep (stripLeadingDot (if ext.data.isEmpty then "jpeg".data else ext.data))
        url.data = url.data →
      normalizeFeaturedUrl folder ext V url =
        String.mk (url.data ++ (if url.data.contains '?'
          then '&' :: 'v' :: '=' :: digitsOf V
          else '?' :: 'v' :: '=' :: digitsOf V))) := by
  constructor
  · intro folder ext V url a b sep d ds hsep hd hds hb hprev hurl hint htrim hpre
    obtain ⟨hne, hdig⟩ := internal_url_facts folder.data url.data hint
    rw [normalizeFeaturedUrl,
      normalize_reduces folder.data ext.data V url.data hne hdig htrim hpre]
    simp only [bustStep, hint, if_true]
    rw [hurl]
    rw [hasVMatch_append sep d (ds ++ b.data) hsep hd a.data]
    simp only [if_true]
    rw [replaceVDigits_decomp (digitsOf V) sep d ds b.data hsep hd hds hb a.data hprev]
  · intro folder ext V url hno hint htrim hpre
    obtain ⟨hne, hdig⟩ := internal_url_facts folder.data url.data hint
    rw [normalizeFeaturedUrl,
      normalize_reduces folder.data ext.data V url.data hne hdig htrim hpre]
    simp only [bustStep, hint, if_true, hno, Bool.false_eq_true, if_false]

/-- Witness for C6: on `/gallery/a.jpeg?v=3` with asset version 5 the `3`
is replaced by `5`; on `/gallery/b.jpeg` a `?v=5` is appended. -/
theorem normalizeFeaturedUrl_cache_bust_witness :
    normalizeFeaturedUrl "/gallery" "jpeg" 5 "/gallery/a.jpeg?v=3" =
      String.mk ("/gallery/a.jpeg".data ++ '?' :: 'v' :: '=' :: (digitsOf 5 ++ "".data)) ∧
    normalizeFeaturedUrl "/gallery" "jpeg" 5 "/gallery/b.jpeg" =
      String.mk ("/gallery/b.jpeg".data ++ (if "/gallery/b.jpeg".data.contains '?'
        then '&' :: 'v' :: '=' :: digitsOf 5
        else '?' :: 'v' :: '=' :: digitsOf 5)) := by
  constructor
  · exact normalizeFeaturedUrl_cache_bust.1 "/gallery" "jpeg" 5 "/gallery/a.jpeg?v=3"
      "/gallery/a.jpeg" "" '?' '3' [] (by decide) (by decide)
      (by intro c h; cases h) (by intro c h; cases h) (by decide) (by decide)
      (by decide) (by decide) (by decide)
  · exact normalizeFeaturedUrl_cache_bust.2 "/gallery" "jpeg" 5 "/gallery/b.jpeg"
      (by decide) (by decide) (by decide) (by decide)

